import Mathlib

/-!
Shallow embedding of the auth stack of the barber-appointment backend
(src/backend/src/services/auth.service.ts, src/backend/src/controllers/auth.controller.ts,
src/backend/src/utils/jwt.utils.ts, the error middleware, and the Redis client),
together with the slot-generation algorithm described in the design document.

External libraries (bcryptjs, jsonwebtoken, the Redis client, Prisma) are modelled
by deterministic pure functions; database and cache state is passed explicitly.
-/

/-- JWT payload carried by access and refresh tokens (jwt.utils.ts, `JwtPayload`). -/
structure JwtPayload where
  userId : String
  email : String
  role : String
deriving DecidableEq

/-- A signed JWT. `jwt.sign(payload, secret, \x7bexpiresIn\x7d)` is modelled as a record of
its inputs, so verification can recover the payload exactly when the secret matches. -/
structure SignedToken where
  payload : JwtPayload
  secret : String
  expiresIn : String
deriving DecidableEq

/-- Model of `jwt.sign`. -/
def jwtSign (payload : JwtPayload) (secret : String) (expiresIn : String) : SignedToken :=
  ⟨payload, secret, expiresIn⟩

/-- Model of `jwt.verify`: returns the payload when the secret matches, `none`
when verification throws. -/
def jwtVerify (token : SignedToken) (secret : String) : Option JwtPayload :=
  if token.secret = secret then some token.payload else none

/-- The JWT portion of the environment configuration (config/env). -/
structure Config where
  jwtSecret : String
  jwtRefreshSecret : String

/-- The token pair returned by `generateTokens`. -/
structure Tokens where
  accessToken : SignedToken
  refreshToken : SignedToken
deriving DecidableEq

/-- jwt.utils.ts `generateTokens`: access token signed with the access secret
(15m expiry), refresh token signed with the refresh secret (7d expiry). -/
def generateTokens (cfg : Config) (payload : JwtPayload) : Tokens :=
  ⟨jwtSign payload cfg.jwtSecret "15m", jwtSign payload cfg.jwtRefreshSecret "7d"⟩

/-- jwt.utils.ts `verifyAccessToken`. -/
def verifyAccessToken (cfg : Config) (token : SignedToken) : Option JwtPayload :=
  jwtVerify token cfg.jwtSecret

/-- jwt.utils.ts `verifyRefreshToken`. -/
def verifyRefreshToken (cfg : Config) (token : SignedToken) : Option JwtPayload :=
  jwtVerify token cfg.jwtRefreshSecret

/-- Model of `bcrypt.hash(password, cost)`: an injective tagged encoding standing in
for the bcrypt digest. -/
def bcryptHash (password : String) (cost : Nat) : String :=
  "bcrypt$" ++ toString cost ++ "$" ++ password

/-- Model of `bcrypt.compare(password, digest)`: true exactly when the digest is the
hash of the password (the service only ever hashes at cost 12). -/
def bcryptCompare (password digest : String) : Bool :=
  digest == bcryptHash password 12

/-- A `User` row of the Prisma schema as used by the auth service. -/
structure User where
  id : String
  email : String
  password : String
  firstName : String
  lastName : String
  phone : Option String
  role : String
deriving DecidableEq

/-- `Omit<User, 'password'>`: the user object the auth service returns. -/
structure UserPublic where
  id : String
  email : String
  firstName : String
  lastName : String
  phone : Option String
  role : String
deriving DecidableEq

/-- The destructuring `const \x7b password, ...userWithoutPassword \x7d = user`. -/
def stripPassword (u : User) : UserPublic :=
  ⟨u.id, u.email, u.firstName, u.lastName, u.phone, u.role⟩

/-- `prisma.user.findUnique(\x7b where: \x7b email \x7d \x7d)`. -/
def findUniqueByEmail (db : List User) (email : String) : Option User :=
  db.find? (fun u => u.email == email)

/-- `prisma.user.findUnique(\x7b where: \x7b id \x7d \x7d)`. -/
def findUniqueById (db : List User) (id : String) : Option User :=
  db.find? (fun u => u.id == id)

/-- A Redis entry: stored value plus the EX (expiry, seconds) it was set with. -/
structure RedisEntry where
  value : SignedToken
  ex : Nat
deriving DecidableEq

/-- The Redis key-value store, most recent write first. -/
abbrev RedisStore := List (String × RedisEntry)

/-- `redis.set(key, value, \x7b EX \x7d)`: the new binding shadows any older one. -/
def redisSet (store : RedisStore) (key : String) (value : SignedToken) (ex : Nat) :
    RedisStore :=
  (key, ⟨value, ex⟩) :: store

/-- Lookup of the current entry (value and expiry) under a key. -/
def redisGetEntry (store : RedisStore) (key : String) : Option RedisEntry :=
  (store.find? (fun e => e.1 == key)).map (fun e => e.2)

/-- `redis.get(key)`. -/
def redisGet (store : RedisStore) (key : String) : Option SignedToken :=
  (redisGetEntry store key).map (fun e => e.value)

/-- `redis.del(key)`: removes every binding of the key. -/
def redisDel (store : RedisStore) (key : String) : RedisStore :=
  store.filter (fun e => !(e.1 == key))

/-- Combined persistent state: the Prisma user table and the Redis store. -/
structure AuthState where
  db : List User
  store : RedisStore

/-- auth.service.ts `RegisterData`. -/
structure RegisterData where
  email : String
  password : String
  firstName : String
  lastName : String
  phone : Option String
  role : Option String

/-- auth.service.ts `LoginData`. -/
structure LoginData where
  email : String
  password : String

/-- The Redis key `refresh_token:<userId>`. -/
def refreshKey (userId : String) : String :=
  "refresh_token:" ++ userId

/-- The expiry used at every `redis.set`: `7 * 24 * 60 * 60` seconds. -/
def refreshTokenEx : Nat := 7 * 24 * 60 * 60

/-- The user row `prisma.user.create` inserts for a registration: the spread of the
input data with the password replaced by its cost-12 bcrypt hash and the role
defaulted to CUSTOMER; `newId` is the id the database assigns. -/
def mkUser (data : RegisterData) (newId : String) : User :=
  ⟨newId, data.email, bcryptHash data.password 12, data.firstName, data.lastName,
    data.phone, data.role.getD "CUSTOMER"⟩

/-- `AuthService.register`. A thrown error is `.error msg` with the state unchanged. -/
def register (cfg : Config) (st : AuthState) (data : RegisterData) (newId : String) :
    AuthState × Except String (UserPublic × Tokens) :=
  match findUniqueByEmail st.db data.email with
  | some _ => (st, .error "User already exists with this email")
  | none =>
    let user := mkUser data newId
    let payload : JwtPayload := ⟨user.id, user.email, user.role⟩
    let tokens := generateTokens cfg payload
    (⟨st.db ++ [user],
      redisSet st.store (refreshKey user.id) tokens.refreshToken refreshTokenEx⟩,
     .ok (stripPassword user, tokens))

/-- `AuthService.login`. -/
def login (cfg : Config) (st : AuthState) (data : LoginData) :
    AuthState × Except String (UserPublic × Tokens) :=
  match findUniqueByEmail st.db data.email with
  | none => (st, .error "Invalid credentials")
  | some user =>
    if bcryptCompare data.password user.password then
      let payload : JwtPayload := ⟨user.id, user.email, user.role⟩
      let tokens := generateTokens cfg payload
      (⟨st.db,
        redisSet st.store (refreshKey user.id) tokens.refreshToken refreshTokenEx⟩,
       .ok (stripPassword user, tokens))
    else (st, .error "Invalid credentials")

/-- `AuthService.refreshTokens`. -/
def refreshTokens (cfg : Config) (st : AuthState) (userId : String) :
    AuthState × Except String Tokens :=
  match findUniqueById st.db userId with
  | none => (st, .error "User not found")
  | some user =>
    let payload : JwtPayload := ⟨user.id, user.email, user.role⟩
    let tokens := generateTokens cfg payload
    (⟨st.db,
      redisSet st.store (refreshKey user.id) tokens.refreshToken refreshTokenEx⟩,
     .ok tokens)

/-- `AuthService.logout`. -/
def logout (st : AuthState) (userId : String) : AuthState :=
  ⟨st.db, redisDel st.store (refreshKey userId)⟩

/-- `AuthService.getProfile`. -/
def getProfile (st : AuthState) (userId : String) : Option UserPublic :=
  (findUniqueById st.db userId).map stripPassword

/-- The observable outcome of `AuthController.refreshToken`: the HTTP response sent,
or the error forwarded to `next` (handled by the error middleware). -/
inductive RefreshOutcome where
  | badRequest : String → RefreshOutcome
  | forbidden : String → RefreshOutcome
  | success : Tokens → RefreshOutcome
  | handledError : String → RefreshOutcome
deriving DecidableEq

/-- `AuthController.refreshToken`: missing body token gives 400; a token that fails
refresh-secret verification throws into the catch; a token absent from or different
from the Redis-stored value gives 403; otherwise the service refresh runs. -/
def controllerRefreshToken (cfg : Config) (st : AuthState) (body : Option SignedToken) :
    AuthState × RefreshOutcome :=
  match body with
  | none => (st, .badRequest "Refresh token required")
  | some tok =>
    match jwtVerify tok cfg.jwtRefreshSecret with
    | none => (st, .handledError "jwt verification failed")
    | some decoded =>
      match redisGet st.store (refreshKey decoded.userId) with
      | none => (st, .forbidden "Invalid refresh token")
      | some stored =>
        if stored = tok then
          match refreshTokens cfg st decoded.userId with
          | (st', .ok tokens) => (st', .success tokens)
          | (st', .error msg) => (st', .handledError msg)
        else (st, .forbidden "Invalid refresh token")

/-- The error object handed to the error middleware. -/
structure ErrorInput where
  name : String
  message : String

/-- The JSON error response: status code, `message` field, optional `details`. -/
structure ErrorResponse where
  status : Nat
  message : String
  details : Option String
deriving DecidableEq

/-- error.middleware.ts `errorHandler`: maps the error name to a status and body. -/
def errorHandler (isDev : Bool) (error : ErrorInput) : ErrorResponse :=
  if error.name = "ValidationError" then
    ⟨400, "Validation error", some error.message⟩
  else if error.name = "UnauthorizedError" then
    ⟨401, "Unauthorized", none⟩
  else if error.name = "PrismaClientKnownRequestError" then
    ⟨400, "Database error", some "Invalid request data"⟩
  else
    ⟨500, "Internal server error", if isDev then some error.message else none⟩

/-- A half-open time interval in minutes, used for bookings and candidate slots. -/
structure SlotInterval where
  lo : Nat
  hi : Nat
deriving DecidableEq

/-- Two intervals overlap when each starts before the other ends. -/
def overlaps (a b : SlotInterval) : Bool :=
  decide (a.lo < b.hi) && decide (b.lo < a.hi)

/-- Modelled from the spec: the designed-but-unbuilt slot-generation algorithm
("slot generation + overlap marking is a straightforward interval-scan over a
sorted list of existing bookings at a fixed granularity"). Candidate starts step
through the shop's open hours at the granularity; a candidate is kept when the
whole service fits before closing and it overlaps no existing booking. -/
def generateSlots (openT closeT duration gran : Nat) (bookings : List SlotInterval) :
    List SlotInterval :=
  (((List.range ((closeT - openT) / gran + 1)).map (fun i => openT + i * gran)).filter
      (fun s => decide (s + duration ≤ closeT))).filterMap
    (fun s =>
      let slot : SlotInterval := ⟨s, s + duration⟩
      if bookings.all (fun b => !(overlaps slot b)) then some slot else none)

/-! ## Helper lemmas -/

/-- A token verifies under the secret it was signed with, recovering its payload. -/
theorem jwtVerify_jwtSign (p : JwtPayload) (s e : String) :
    jwtVerify (jwtSign p s e) s = some p := by
  simp [jwtVerify, jwtSign]

/-- Comparing a password against its own cost-12 hash succeeds. -/
theorem bcryptCompare_bcryptHash (p : String) :
    bcryptCompare p (bcryptHash p 12) = true := by
  simp [bcryptCompare]

/-- Distinct user ids give distinct Redis refresh keys. -/
theorem refreshKey_inj (a b : String) (h : refreshKey a = refreshKey b) : a = b := by
  unfold refreshKey at h
  have hd : ("refresh_token:" ++ a).data = ("refresh_token:" ++ b).data := by rw [h]
  simp only [String.data_append] at hd
  exact String.ext (List.append_cancel_left hd)

/-- Reading back the key just set returns the new value and expiry. -/
theorem redisGetEntry_redisSet_self (s : RedisStore) (k : String) (v : SignedToken)
    (e : Nat) : redisGetEntry (redisSet s k v e) k = some ⟨v, e⟩ := by
  simp [redisGetEntry, redisSet, List.find?_cons_of_pos]

/-- Reading any key after a set: the new binding shadows, other keys are untouched. -/
theorem redisGet_redisSet (s : RedisStore) (k : String) (v : SignedToken) (e : Nat)
    (k' : String) :
    redisGet (redisSet s k v e) k' = if k = k' then some v else redisGet s k' := by
  by_cases h : k = k'
  · simp [redisGet, redisGetEntry, redisSet, List.find?_cons_of_pos, h]
  · rw [if_neg h]
    have : ((fun e => e.1 == k') ((k, ⟨v, e⟩) : String × RedisEntry)) = false := by
      simp [h]
    simp [redisGet, redisGetEntry, redisSet, List.find?_cons_of_neg, this]

/-- After deleting a key, reading it yields nothing. -/
theorem redisGet_redisDel_self (s : RedisStore) (k : String) :
    redisGet (redisDel s k) k = none := by
  have hf : (s.filter (fun e => !(e.1 == k))).find? (fun e => e.1 == k) = none := by
    refine List.find?_eq_none.mpr ?_
    intro x hx
    have hm := (List.mem_filter.mp hx).2
    simp only [Bool.not_eq_true'] at hm
    simp [hm]
  simp [redisGet, redisGetEntry, redisDel, hf]

/-- A key readable after a delete was readable before it. -/
theorem redisGet_isSome_of_del (s : RedisStore) (key k : String)
    (h : (redisGet (redisDel s key) k).isSome = true) :
    (redisGet s k).isSome = true := by
  simp only [redisGet, redisGetEntry, redisDel, Option.isSome_map'] at h ⊢
  obtain ⟨x, hx⟩ := Option.isSome_iff_exists.mp h
  have hmem : x ∈ s := (List.mem_filter.mp (List.mem_of_find?_eq_some hx)).1
  have hp := List.find?_some hx
  exact List.find?_isSome.mpr ⟨x, hmem, hp⟩

/-- If some user in the table has the email, the unique lookup finds one. -/
theorem findUniqueByEmail_isSome (db : List User) (email : String) (u : User)
    (hu : u ∈ db) (he : u.email = email) :
    (findUniqueByEmail db email).isSome = true := by
  unfold findUniqueByEmail
  exact List.find?_isSome.mpr ⟨u, hu, by simp [he]⟩

/-- Appending a user with the searched email to a table without it finds that user. -/
theorem findUniqueByEmail_append_none (db : List User) (u : User) (email : String)
    (h : findUniqueByEmail db email = none) (he : u.email = email) :
    findUniqueByEmail (db ++ [u]) email = some u := by
  unfold findUniqueByEmail at h ⊢
  rw [List.find?_append, h]
  simp [he]

/-! ## Claim theorems -/

/-- C1: when the user table already contains a user with the requested email,
`register` throws "User already exists with this email" and leaves the state
unchanged: no row is created, no token is issued or stored. -/
theorem register_duplicate_email_rejected (cfg : Config) (st : AuthState)
    (data : RegisterData) (newId : String) (u : User)
    (hu : u ∈ st.db) (he : u.email = data.email) :
    register cfg st data newId = (st, .error "User already exists with this email") := by
  have hs := findUniqueByEmail_isSome st.db data.email u hu he
  unfold register
  split
  · rfl
  · next hn => rw [hn] at hs; simp at hs

/-- Witness for C1 at a concrete state holding the conflicting user. -/
theorem register_duplicate_email_rejected_witness :
    register ⟨"as", "rs"⟩
        ⟨[⟨"u1", "a@b.c", "d", "Ann", "Lee", none, "CUSTOMER"⟩], []⟩
        ⟨"a@b.c", "pw123456", "Bob", "Roe", none, none⟩ "u2"
      = (⟨[⟨"u1", "a@b.c", "d", "Ann", "Lee", none, "CUSTOMER"⟩], []⟩,
         .error "User already exists with this email") :=
  register_duplicate_email_rejected ⟨"as", "rs"⟩
    ⟨[⟨"u1", "a@b.c", "d", "Ann", "Lee", none, "CUSTOMER"⟩], []⟩
    ⟨"a@b.c", "pw123456", "Bob", "Roe", none, none⟩ "u2"
    ⟨"u1", "a@b.c", "d", "Ann", "Lee", none, "CUSTOMER"⟩ (List.mem_singleton.mpr rfl) rfl

/-- C9: `login` throws an error with the identical message "Invalid credentials"
both when no user has the given email and when the user exists but the password
comparison fails, so the two failure causes are indistinguishable to the caller. -/
theorem login_failure_message_uniform (cfg : Config) (st : AuthState)
    (data : LoginData) :
    (findUniqueByEmail st.db data.email = none →
      login cfg st data = (st, .error "Invalid credentials")) ∧
    (∀ u, findUniqueByEmail st.db data.email = some u →
      bcryptCompare data.password u.password = false →
      login cfg st data = (st, .error "Invalid credentials")) := by
  constructor
  · intro h
    unfold login
    rw [h]
  · intro u h hc
    unfold login
    rw [h]
    simp [hc]

/-- Witness for C9: unknown email and wrong password produce the same error. -/
theorem login_failure_message_uniform_witness :
    login ⟨"as", "rs"⟩ ⟨[], []⟩ ⟨"a@b.c", "pw"⟩ = (⟨[], []⟩, .error "Invalid credentials") ∧
    login ⟨"as", "rs"⟩ ⟨[⟨"u1", "a@b.c", bcryptHash "right" 12, "Ann", "Lee", none,
        "CUSTOMER"⟩], []⟩ ⟨"a@b.c", "wrong"⟩
      = (⟨[⟨"u1", "a@b.c", bcryptHash "right" 12, "Ann", "Lee", none, "CUSTOMER"⟩], []⟩,
         .error "Invalid credentials") :=
  ⟨(login_failure_message_uniform ⟨"as", "rs"⟩ ⟨[], []⟩ ⟨"a@b.c", "pw"⟩).1 rfl,
   (login_failure_message_uniform ⟨"as", "rs"⟩
      ⟨[⟨"u1", "a@b.c", bcryptHash "right" 12, "Ann", "Lee", none, "CUSTOMER"⟩], []⟩
      ⟨"a@b.c", "wrong"⟩).2
     ⟨"u1", "a@b.c", bcryptHash "right" 12, "Ann", "Lee", none, "CUSTOMER"⟩
     (by simp [findUniqueByEmail]) (by decide)⟩

/-- C4: the error middleware maps error names to responses: ValidationError to
400 "Validation error", UnauthorizedError to 401 "Unauthorized",
PrismaClientKnownRequestError to 400 "Database error", and everything else to
500 "Internal server error"; the body always carries a message field. -/
theorem errorHandler_status_mapping (isDev : Bool) (e : ErrorInput) :
    (e.name = "ValidationError" →
      errorHandler isDev e = ⟨400, "Validation error", some e.message⟩) ∧
    (e.name = "UnauthorizedError" →
      errorHandler isDev e = ⟨401, "Unauthorized", none⟩) ∧
    (e.name = "PrismaClientKnownRequestError" →
      errorHandler isDev e = ⟨400, "Database error", some "Invalid request data"⟩) ∧
    (e.name ≠ "ValidationError" → e.name ≠ "UnauthorizedError" →
      e.name ≠ "PrismaClientKnownRequestError" →
      (errorHandler isDev e).status = 500 ∧
      (errorHandler isDev e).message = "Internal server error") := by
  refine ⟨?_, ?_, ?_, ?_⟩
  · intro h; simp [errorHandler, h]
  · intro h; simp [errorHandler, h]
  · intro h; simp [errorHandler, h]
  · intro h1 h2 h3; simp [errorHandler, h1, h2, h3]

/-- Witness for C4 at one concrete error of each kind. -/
theorem errorHandler_status_mapping_witness :
    errorHandler false ⟨"ValidationError", "bad email"⟩
      = ⟨400, "Validation error", some "bad email"⟩ ∧
    errorHandler false ⟨"UnauthorizedError", "m"⟩ = ⟨401, "Unauthorized", none⟩ ∧
    errorHandler false ⟨"PrismaClientKnownRequestError", "m"⟩
      = ⟨400, "Database error", some "Invalid request data"⟩ ∧
    (errorHandler false ⟨"TypeError", "m"⟩).status = 500 ∧
    (errorHandler false ⟨"TypeError", "m"⟩).message = "Internal server error" :=
  ⟨(errorHandler_status_mapping false ⟨"ValidationError", "bad email"⟩).1 rfl,
   (errorHandler_status_mapping false ⟨"UnauthorizedError", "m"⟩).2.1 rfl,
   (errorHandler_status_mapping false ⟨"PrismaClientKnownRequestError", "m"⟩).2.2.1 rfl,
   (errorHandler_status_mapping false ⟨"TypeError", "m"⟩).2.2.2
     (by decide) (by decide) (by decide)⟩

/-- C3: every slot produced by the slot generation lies within the shop's open
and close times, spans exactly the service duration, and overlaps no existing
booking. (The algorithm is modelled from the spec; it is not yet in the code.) -/
theorem generateSlots_sound (openT closeT duration gran : Nat)
    (bookings : List SlotInterval) (slot : SlotInterval)
    (h : slot ∈ generateSlots openT closeT duration gran bookings) :
    openT ≤ slot.lo ∧ slot.hi ≤ closeT ∧ slot.hi = slot.lo + duration ∧
    ∀ b ∈ bookings, overlaps slot b = false := by
  unfold generateSlots at h
  obtain ⟨s, hs, hf⟩ := List.mem_filterMap.mp h
  obtain ⟨hsmem, hle⟩ := List.mem_filter.mp hs
  obtain ⟨i, _, hgi⟩ := List.mem_map.mp hsmem
  have hle' : s + duration ≤ closeT := of_decide_eq_true hle
  have hlo : openT ≤ s := by
    calc openT ≤ openT + i * gran := Nat.le_add_right _ _
    _ = s := hgi
  simp only at hf
  split at hf
  · next hall =>
    have hslot : slot = ⟨s, s + duration⟩ := (Option.some.injEq _ _ ▸ hf).symm
    subst hslot
    refine ⟨hlo, hle', rfl, ?_⟩
    intro b hb
    have := List.all_eq_true.mp hall b hb
    simpa using this
  · exact absurd hf (by simp)

/-- Witness for C3: a kept slot in a concrete schedule with one booking. -/
theorem generateSlots_sound_witness :
    (⟨570, 600⟩ : SlotInterval) ∈ generateSlots 540 600 30 15 [⟨555, 570⟩] ∧
    540 ≤ (⟨570, 600⟩ : SlotInterval).lo ∧ (⟨570, 600⟩ : SlotInterval).hi ≤ 600 ∧
    (⟨570, 600⟩ : SlotInterval).hi = (⟨570, 600⟩ : SlotInterval).lo + 30 ∧
    overlaps ⟨570, 600⟩ ⟨555, 570⟩ = false :=
  ⟨by decide,
   (generateSlots_sound 540 600 30 15 [⟨555, 570⟩] ⟨570, 600⟩ (by decide)).1,
   (generateSlots_sound 540 600 30 15 [⟨555, 570⟩] ⟨570, 600⟩ (by decide)).2.1,
   (generateSlots_sound 540 600 30 15 [⟨555, 570⟩] ⟨570, 600⟩ (by decide)).2.2.1,
   (generateSlots_sound 540 600 30 15 [⟨555, 570⟩] ⟨570, 600⟩ (by decide)).2.2.2
     ⟨555, 570⟩ (by decide)⟩

/-- The JWT payload built for a freshly registered user. -/
def registerPayload (data : RegisterData) (newId : String) : JwtPayload :=
  ⟨newId, data.email, data.role.getD "CUSTOMER"⟩

/-- Characterization of a successful `register`: no prior user with the email,
and the resulting state, returned user, and tokens are as constructed. -/
theorem register_ok_elim (cfg : Config) (st : AuthState) (data : RegisterData)
    (newId : String) (st1 : AuthState) (pu : UserPublic) (t : Tokens)
    (h : register cfg st data newId = (st1, .ok (pu, t))) :
    findUniqueByEmail st.db data.email = none ∧
    st1 = ⟨st.db ++ [mkUser data newId],
      redisSet st.store (refreshKey newId)
        (generateTokens cfg (registerPayload data newId)).refreshToken refreshTokenEx⟩ ∧
    pu = stripPassword (mkUser data newId) ∧
    t = generateTokens cfg (registerPayload data newId) := by
  unfold register at h
  split at h
  · exact absurd (congrArg Prod.snd h) (by simp)
  · next hn =>
    simp only [mkUser, registerPayload, Prod.mk.injEq, Except.ok.injEq] at h ⊢
    obtain ⟨h1, h2, h3⟩ := h
    exact ⟨hn, h1.symm, h2.symm, h3.symm⟩

/-- Characterization of a successful `login`: a user with the email was found,
the bcrypt comparison succeeded, and state, user, and tokens are as constructed. -/
theorem login_ok_elim (cfg : Config) (st : AuthState) (data : LoginData)
    (st2 : AuthState) (pu : UserPublic) (t : Tokens)
    (h : login cfg st data = (st2, .ok (pu, t))) :
    ∃ u, findUniqueByEmail st.db data.email = some u ∧
      bcryptCompare data.password u.password = true ∧
      st2 = ⟨st.db, redisSet st.store (refreshKey u.id)
        (generateTokens cfg ⟨u.id, u.email, u.role⟩).refreshToken refreshTokenEx⟩ ∧
      pu = stripPassword u ∧ t = generateTokens cfg ⟨u.id, u.email, u.role⟩ := by
  unfold login at h
  split at h
  · exact absurd (congrArg Prod.snd h) (by simp)
  · next u hu =>
    split at h
    · next hc =>
      refine ⟨u, hu, hc, ?_⟩
      simp only [Prod.mk.injEq, Except.ok.injEq] at h
      obtain ⟨h1, h2, h3⟩ := h
      exact ⟨h1.symm, h2.symm, h3.symm⟩
    · exact absurd (congrArg Prod.snd h) (by simp)

/-- Characterization of a successful service-level `refreshTokens`. -/
theorem refreshTokens_ok_elim (cfg : Config) (st : AuthState) (userId : String)
    (st3 : AuthState) (t : Tokens)
    (h : refreshTokens cfg st userId = (st3, .ok t)) :
    ∃ u, findUniqueById st.db userId = some u ∧ u.id = userId ∧
      st3 = ⟨st.db, redisSet st.store (refreshKey u.id)
        (generateTokens cfg ⟨u.id, u.email, u.role⟩).refreshToken refreshTokenEx⟩ ∧
      t = generateTokens cfg ⟨u.id, u.email, u.role⟩ := by
  unfold refreshTokens at h
  split at h
  · exact absurd (congrArg Prod.snd h) (by simp)
  · next u hu =>
    have hid : u.id = userId := by
      have := List.find?_some hu
      simpa using this
    simp only [Prod.mk.injEq, Except.ok.injEq] at h
    obtain ⟨h1, h2⟩ := h
    exact ⟨u, hu, hid, h1.symm, h2.symm⟩

/-- C6: a successful `register` persists the cost-12 bcrypt hash of the supplied
password, never the plaintext, and a successful `login` implies the bcrypt
comparison of the supplied password against the stored digest returned true. -/
theorem password_hashing_discipline (cfg : Config) (st : AuthState) :
    (∀ data newId st1 pu t, register cfg st data newId = (st1, .ok (pu, t)) →
      st1.db = st.db ++ [mkUser data newId] ∧
      (mkUser data newId).password = bcryptHash data.password 12 ∧
      (mkUser data newId).password ≠ data.password) ∧
    (∀ data st2 pu t, login cfg st data = (st2, .ok (pu, t)) →
      ∃ u, findUniqueByEmail st.db data.email = some u ∧
        bcryptCompare data.password u.password = true) := by
  constructor
  · intro data newId st1 pu t h
    obtain ⟨_, hst, _, _⟩ := register_ok_elim cfg st data newId st1 pu t h
    refine ⟨by rw [hst], rfl, ?_⟩
    intro hcontra
    have hlen : (bcryptHash data.password 12).length = data.password.length := by
      simpa [mkUser] using congrArg String.length hcontra
    rw [bcryptHash] at hlen
    simp only [String.length_append] at hlen
    have ha : (toString (12 : Nat)).length = 2 := rfl
    have hb : ("$" : String).length = 1 := rfl
    rw [ha, hb] at hlen
    omega
  · intro data st2 pu t h
    obtain ⟨u, hu, hc, _⟩ := login_ok_elim cfg st data st2 pu t h
    exact ⟨u, hu, hc⟩

/-- Witness for C6 at a concrete registration and login. -/
theorem password_hashing_discipline_witness :
    (register ⟨"as", "rs"⟩ ⟨[], []⟩ ⟨"a@b.c", "pw123456", "Ann", "Lee", none, none⟩
        "u1").2.isOk = true ∧
    ((register ⟨"as", "rs"⟩ ⟨[], []⟩ ⟨"a@b.c", "pw123456", "Ann", "Lee", none, none⟩
        "u1").1.db = [] ++ [mkUser ⟨"a@b.c", "pw123456", "Ann", "Lee", none, none⟩ "u1"] ∧
      (mkUser ⟨"a@b.c", "pw123456", "Ann", "Lee", none, none⟩ "u1").password
        = bcryptHash "pw123456" 12) :=
  ⟨by decide,
   ((password_hashing_discipline ⟨"as", "rs"⟩ ⟨[], []⟩).1
     ⟨"a@b.c", "pw123456", "Ann", "Lee", none, none⟩ "u1" _ _ _ rfl).1,
   ((password_hashing_discipline ⟨"as", "rs"⟩ ⟨[], []⟩).1
     ⟨"a@b.c", "pw123456", "Ann", "Lee", none, none⟩ "u1" _ _ _ rfl).2.1⟩

/-- C2: after a successful registration, logging in with the same email and
plaintext password succeeds, and the returned access and refresh tokens verify
under the configured secrets with a payload carrying that user's id, email and
role. -/
theorem register_login_roundtrip (cfg : Config) (st : AuthState) (data : RegisterData)
    (newId : String) (st1 : AuthState) (pu : UserPublic) (t1 : Tokens)
    (h : register cfg st data newId = (st1, .ok (pu, t1))) :
    ∃ st2 pu2 t2, login cfg st1 ⟨data.email, data.password⟩ = (st2, .ok (pu2, t2)) ∧
      ∃ u, findUniqueByEmail st1.db data.email = some u ∧
        verifyAccessToken cfg t2.accessToken = some ⟨u.id, u.email, u.role⟩ ∧
        verifyRefreshToken cfg t2.refreshToken = some ⟨u.id, u.email, u.role⟩ := by
  obtain ⟨hn, hst1, _, _⟩ := register_ok_elim cfg st data newId st1 pu t1 h
  have hdb : st1.db = st.db ++ [mkUser data newId] := by rw [hst1]
  have hfind : findUniqueByEmail st1.db data.email = some (mkUser data newId) := by
    rw [hdb]
    exact findUniqueByEmail_append_none st.db (mkUser data newId) data.email hn rfl
  have hc : bcryptCompare data.password (mkUser data newId).password = true := by
    simpa [mkUser] using bcryptCompare_bcryptHash data.password
  have hlogin : login cfg st1 ⟨data.email, data.password⟩ =
      (⟨st1.db, redisSet st1.store (refreshKey (mkUser data newId).id)
        (generateTokens cfg ⟨(mkUser data newId).id, (mkUser data newId).email,
          (mkUser data newId).role⟩).refreshToken refreshTokenEx⟩,
       .ok (stripPassword (mkUser data newId),
         generateTokens cfg ⟨(mkUser data newId).id, (mkUser data newId).email,
           (mkUser data newId).role⟩)) := by
    unfold login
    rw [hfind]
    simp [hc]
  refine ⟨_, _, _, hlogin, mkUser data newId, hfind, ?_, ?_⟩
  · simp [verifyAccessToken, generateTokens, jwtVerify_jwtSign]
  · simp [verifyRefreshToken, generateTokens, jwtVerify_jwtSign]

/-- Witness for C2: a concrete registration from the empty state, then login. -/
theorem register_login_roundtrip_witness :
    (login ⟨"as", "rs"⟩
      (register ⟨"as", "rs"⟩ ⟨[], []⟩
        ⟨"a@b.c", "pw123456", "Ann", "Lee", none, none⟩ "u1").1
      ⟨"a@b.c", "pw123456"⟩).2.isOk = true := by
  obtain ⟨st2, pu2, t2, hlogin, -⟩ :=
    register_login_roundtrip ⟨"as", "rs"⟩ ⟨[], []⟩
      ⟨"a@b.c", "pw123456", "Ann", "Lee", none, none⟩ "u1" _ _ _ rfl
  have hlogin' : login ⟨"as", "rs"⟩
      (register ⟨"as", "rs"⟩ ⟨[], []⟩
        ⟨"a@b.c", "pw123456", "Ann", "Lee", none, none⟩ "u1").1
      ⟨"a@b.c", "pw123456"⟩ = (st2, Except.ok (pu2, t2)) := hlogin
  rw [hlogin']
  rfl

/-- C10: the user objects returned by register, login, and getProfile are the
stored row with the password field removed and every other field preserved. -/
theorem user_responses_omit_password (cfg : Config) (st : AuthState) :
    (∀ data newId st1 pu t, register cfg st data newId = (st1, .ok (pu, t)) →
      pu = stripPassword (mkUser data newId)) ∧
    (∀ data st2 pu t, login cfg st data = (st2, .ok (pu, t)) →
      ∃ u, findUniqueByEmail st.db data.email = some u ∧ pu = stripPassword u) ∧
    (∀ uid pu, getProfile st uid = some pu →
      ∃ u, findUniqueById st.db uid = some u ∧ pu = stripPassword u) ∧
    (∀ u : User, (stripPassword u).id = u.id ∧ (stripPassword u).email = u.email ∧
      (stripPassword u).firstName = u.firstName ∧
      (stripPassword u).lastName = u.lastName ∧
      (stripPassword u).phone = u.phone ∧ (stripPassword u).role = u.role) := by
  refine ⟨?_, ?_, ?_, ?_⟩
  · intro data newId st1 pu t h
    exact (register_ok_elim cfg st data newId st1 pu t h).2.2.1
  · intro data st2 pu t h
    obtain ⟨u, hu, _, _, hpu, _⟩ := login_ok_elim cfg st data st2 pu t h
    exact ⟨u, hu, hpu⟩
  · intro uid pu h
    unfold getProfile at h
    obtain ⟨u, hu, hpu⟩ := Option.map_eq_some'.mp h
    exact ⟨u, hu, hpu.symm⟩
  · intro u
    exact ⟨rfl, rfl, rfl, rfl, rfl, rfl⟩

/-- Witness for C10 at a concrete registration and profile lookup. -/
theorem user_responses_omit_password_witness :
    (register ⟨"as", "rs"⟩ ⟨[], []⟩
        ⟨"a@b.c", "pw123456", "Ann", "Lee", none, none⟩ "u1").2
      = .ok (stripPassword (mkUser ⟨"a@b.c", "pw123456", "Ann", "Lee", none, none⟩ "u1"),
        generateTokens ⟨"as", "rs"⟩
          (registerPayload ⟨"a@b.c", "pw123456", "Ann", "Lee", none, none⟩ "u1")) ∧
    (stripPassword ⟨"u1", "a@b.c", "d", "Ann", "Lee", none, "CUSTOMER"⟩).email = "a@b.c" ∧
    getProfile ⟨[⟨"u1", "a@b.c", "d", "Ann", "Lee", none, "CUSTOMER"⟩], []⟩ "u1"
      = some (stripPassword ⟨"u1", "a@b.c", "d", "Ann", "Lee", none, "CUSTOMER"⟩) :=
  ⟨rfl,
   ((user_responses_omit_password ⟨"as", "rs"⟩ ⟨[], []⟩).2.2.2
     ⟨"u1", "a@b.c", "d", "Ann", "Lee", none, "CUSTOMER"⟩).2.1,
   by
    obtain ⟨u, hu, hpu⟩ :=
      (user_responses_omit_password ⟨"as", "rs"⟩
        ⟨[⟨"u1", "a@b.c", "d", "Ann", "Lee", none, "CUSTOMER"⟩], []⟩).2.2.1 "u1"
        (stripPassword ⟨"u1", "a@b.c", "d", "Ann", "Lee", none, "CUSTOMER"⟩) (by decide)
    decide⟩

/-- C7: every successful register, login, and service refresh leaves, under the
key `refresh_token:<id>` of the affected user, exactly the refresh token it just
issued, stored with the 7-day expiry, overwriting whatever was there before. -/
theorem refresh_token_store_invariant (cfg : Config) (st : AuthState) :
    (∀ data newId st1 pu t, register cfg st data newId = (st1, .ok (pu, t)) →
      redisGetEntry st1.store (refreshKey newId) = some ⟨t.refreshToken, refreshTokenEx⟩) ∧
    (∀ data st2 pu t, login cfg st data = (st2, .ok (pu, t)) →
      ∃ u, findUniqueByEmail st.db data.email = some u ∧
        redisGetEntry st2.store (refreshKey u.id) = some ⟨t.refreshToken, refreshTokenEx⟩) ∧
    (∀ uid st3 t, refreshTokens cfg st uid = (st3, .ok t) →
      redisGetEntry st3.store (refreshKey uid) = some ⟨t.refreshToken, refreshTokenEx⟩) := by
  refine ⟨?_, ?_, ?_⟩
  · intro data newId st1 pu t h
    obtain ⟨_, hst1, _, ht⟩ := register_ok_elim cfg st data newId st1 pu t h
    rw [hst1, ht]
    exact redisGetEntry_redisSet_self _ _ _ _
  · intro data st2 pu t h
    obtain ⟨u, hu, _, hst2, _, ht⟩ := login_ok_elim cfg st data st2 pu t h
    rw [hst2, ht]
    exact ⟨u, hu, redisGetEntry_redisSet_self _ _ _ _⟩
  · intro uid st3 t h
    obtain ⟨u, _, hid, hst3, ht⟩ := refreshTokens_ok_elim cfg st uid st3 t h
    rw [hst3, ht, ← hid]
    exact redisGetEntry_redisSet_self _ _ _ _

/-- Witness for C7: a concrete registration stores its refresh token for 7 days. -/
theorem refresh_token_store_invariant_witness :
    redisGetEntry
        (register ⟨"as", "rs"⟩ ⟨[], []⟩
          ⟨"a@b.c", "pw123456", "Ann", "Lee", none, none⟩ "u1").1.store
        (refreshKey "u1")
      = some ⟨(generateTokens ⟨"as", "rs"⟩
          (registerPayload ⟨"a@b.c", "pw123456", "Ann", "Lee", none, none⟩ "u1")).refreshToken,
        refreshTokenEx⟩ :=
  (refresh_token_store_invariant ⟨"as", "rs"⟩ ⟨[], []⟩).1
    ⟨"a@b.c", "pw123456", "Ann", "Lee", none, none⟩ "u1" _ _ _ rfl

/-- If some user in the table has the id, the unique lookup finds one. -/
theorem findUniqueById_isSome (db : List User) (uid : String) (u : User)
    (hu : u ∈ db) (hid : u.id = uid) :
    (findUniqueById db uid).isSome = true := by
  unfold findUniqueById
  exact List.find?_isSome.mpr ⟨u, hu, by simp [hid]⟩

/-- Every refresh token held in Redis belongs to a user present in the table.
This is the system invariant needed to settle the controller refresh claim. -/
def StoreBackedByDb (st : AuthState) : Prop :=
  ∀ uid, (redisGet st.store (refreshKey uid)).isSome = true →
    ∃ u ∈ st.db, u.id = uid

/-- States reachable from the empty deployment by the auth operations. -/
inductive Reachable (cfg : Config) : AuthState → Prop where
  | init : Reachable cfg ⟨[], []⟩
  | step_register (st : AuthState) (data : RegisterData) (newId : String) :
      Reachable cfg st → Reachable cfg (register cfg st data newId).1
  | step_login (st : AuthState) (data : LoginData) :
      Reachable cfg st → Reachable cfg (login cfg st data).1
  | step_refresh (st : AuthState) (userId : String) :
      Reachable cfg st → Reachable cfg (refreshTokens cfg st userId).1
  | step_logout (st : AuthState) (userId : String) :
      Reachable cfg st → Reachable cfg (logout st userId)

/-- `register` preserves the store-backed-by-table invariant. -/
theorem storeBacked_register (cfg : Config) (st : AuthState) (data : RegisterData)
    (newId : String) (h : StoreBackedByDb st) :
    StoreBackedByDb (register cfg st data newId).1 := by
  unfold register
  split
  · exact h
  · intro uid hget
    rw [redisGet_redisSet] at hget
    split at hget
    · next hkey =>
      refine ⟨mkUser data newId, List.mem_append.mpr (Or.inr (List.mem_singleton.mpr rfl)), ?_⟩
      exact refreshKey_inj _ _ hkey
    · obtain ⟨u, hu, hid⟩ := h uid hget
      exact ⟨u, List.mem_append.mpr (Or.inl hu), hid⟩

/-- `login` preserves the store-backed-by-table invariant. -/
theorem storeBacked_login (cfg : Config) (st : AuthState) (data : LoginData)
    (h : StoreBackedByDb st) : StoreBackedByDb (login cfg st data).1 := by
  unfold login
  split
  · exact h
  · next user huser =>
    split
    · intro uid hget
      rw [redisGet_redisSet] at hget
      split at hget
      · next hkey =>
        exact ⟨user, List.mem_of_find?_eq_some huser, refreshKey_inj _ _ hkey⟩
      · exact h uid hget
    · exact h

/-- The service-level `refreshTokens` preserves the store-backed-by-table invariant. -/
theorem storeBacked_refresh (cfg : Config) (st : AuthState) (userId : String)
    (h : StoreBackedByDb st) : StoreBackedByDb (refreshTokens cfg st userId).1 := by
  unfold refreshTokens
  split
  · exact h
  · next user huser =>
    intro uid hget
    rw [redisGet_redisSet] at hget
    split at hget
    · next hkey =>
      exact ⟨user, List.mem_of_find?_eq_some huser, refreshKey_inj _ _ hkey⟩
    · exact h uid hget

/-- `logout` preserves the store-backed-by-table invariant. -/
theorem storeBacked_logout (st : AuthState) (userId : String)
    (h : StoreBackedByDb st) : StoreBackedByDb (logout st userId) := by
  intro uid hget
  exact h uid (redisGet_isSome_of_del _ _ _ hget)

/-- In every reachable state the Redis store is backed by the user table. -/
theorem reachable_storeBacked (cfg : Config) (st : AuthState)
    (h : Reachable cfg st) : StoreBackedByDb st := by
  induction h with
  | init =>
    intro uid hget
    simp [redisGet, redisGetEntry] at hget
  | step_register st data newId _ ih => exact storeBacked_register cfg st data newId ih
  | step_login st data _ ih => exact storeBacked_login cfg st data ih
  | step_refresh st userId _ ih => exact storeBacked_refresh cfg st userId ih
  | step_logout st userId _ ih => exact storeBacked_logout st userId ih

/-- C5: in every reachable state, the controller refresh endpoint issues new
tokens exactly when the body carries a token that verifies under the refresh
secret and equals the Redis-stored token for the decoded user id; a missing
token yields 400, and a token absent from or different from the stored one
yields 403 with the state unchanged. -/
theorem controller_refresh_characterization (cfg : Config) (st : AuthState)
    (hreach : Reachable cfg st) (body : Option SignedToken) :
    ((∃ st' t, controllerRefreshToken cfg st body = (st', RefreshOutcome.success t)) ↔
      (∃ tok d, body = some tok ∧ jwtVerify tok cfg.jwtRefreshSecret = some d ∧
        redisGet st.store (refreshKey d.userId) = some tok)) ∧
    (body = none →
      controllerRefreshToken cfg st body = (st, .badRequest "Refresh token required")) ∧
    (∀ tok d, body = some tok → jwtVerify tok cfg.jwtRefreshSecret = some d →
      redisGet st.store (refreshKey d.userId) ≠ some tok →
      controllerRefreshToken cfg st body = (st, .forbidden "Invalid refresh token")) := by
  refine ⟨⟨?_, ?_⟩, ?_, ?_⟩
  · rintro ⟨st', t, hsucc⟩
    unfold controllerRefreshToken at hsucc
    split at hsucc
    · exact absurd (congrArg Prod.snd hsucc) (by simp)
    · next tok =>
      split at hsucc
      · exact absurd (congrArg Prod.snd hsucc) (by simp)
      · next d hd =>
        split at hsucc
        · exact absurd (congrArg Prod.snd hsucc) (by simp)
        · next stored hstored =>
          split at hsucc
          · next heqtok =>
            exact ⟨tok, d, rfl, hd, by rw [hstored, heqtok]⟩
          · exact absurd (congrArg Prod.snd hsucc) (by simp)
  · rintro ⟨tok, d, hbody, hd, hget⟩
    subst hbody
    obtain ⟨u, hu, hid⟩ := reachable_storeBacked cfg st hreach d.userId (by rw [hget]; rfl)
    obtain ⟨user, huser⟩ :=
      Option.isSome_iff_exists.mp (findUniqueById_isSome st.db d.userId u hu hid)
    have hrt : refreshTokens cfg st d.userId =
        (⟨st.db, redisSet st.store (refreshKey user.id)
          (generateTokens cfg ⟨user.id, user.email, user.role⟩).refreshToken
          refreshTokenEx⟩,
         .ok (generateTokens cfg ⟨user.id, user.email, user.role⟩)) := by
      unfold refreshTokens
      rw [huser]
    refine ⟨⟨st.db, redisSet st.store (refreshKey user.id)
        (generateTokens cfg ⟨user.id, user.email, user.role⟩).refreshToken
        refreshTokenEx⟩,
      generateTokens cfg ⟨user.id, user.email, user.role⟩, ?_⟩
    simp only [controllerRefreshToken, hd, hget, hrt, if_true]
  · intro hbody
    subst hbody
    rfl
  · intro tok d hbody hd hne
    subst hbody
    cases hget : redisGet st.store (refreshKey d.userId) with
    | none => simp [controllerRefreshToken, hd, hget]
    | some stored =>
      have hne' : ¬ stored = tok := by
        intro he
        exact hne (by rw [hget, he])
      simp [controllerRefreshToken, hd, hget, hne']

/-- Witness for C5 in the reachable empty state with a missing body token. -/
theorem controller_refresh_characterization_witness :
    controllerRefreshToken ⟨"as", "rs"⟩ ⟨[], []⟩ none
      = (⟨[], []⟩, .badRequest "Refresh token required") :=
  (controller_refresh_characterization ⟨"as", "rs"⟩ ⟨[], []⟩ Reachable.init none).2.1 rfl

/-- C8: `logout` removes the user's refresh-token key from Redis, and as long as
that key is absent every refresh request presenting a refresh token decoding to
that user id is answered 403 with no tokens issued and the state unchanged. -/
theorem logout_invalidates_refresh (cfg : Config) (st : AuthState) (uid : String)
    (tok : SignedToken) (d : JwtPayload)
    (hv : jwtVerify tok cfg.jwtRefreshSecret = some d) (hid : d.userId = uid) :
    redisGet (logout st uid).store (refreshKey uid) = none ∧
    ∀ st2 : AuthState, redisGet st2.store (refreshKey uid) = none →
      controllerRefreshToken cfg st2 (some tok)
        = (st2, .forbidden "Invalid refresh token") := by
  constructor
  · exact redisGet_redisDel_self _ _
  · intro st2 hnone
    simp [controllerRefreshToken, hv, hid, hnone]

/-- Witness for C8: a concrete logout deletes the stored token, and a previously
issued refresh token is then rejected. -/
theorem logout_invalidates_refresh_witness :
    redisGet (logout ⟨[], [(refreshKey "u1",
        ⟨jwtSign ⟨"u1", "a@b.c", "CUSTOMER"⟩ "rs" "7d", refreshTokenEx⟩)]⟩ "u1").store
      (refreshKey "u1") = none ∧
    controllerRefreshToken ⟨"as", "rs"⟩ ⟨[], []⟩
        (some (jwtSign ⟨"u1", "a@b.c", "CUSTOMER"⟩ "rs" "7d"))
      = (⟨[], []⟩, .forbidden "Invalid refresh token") :=
  ⟨(logout_invalidates_refresh ⟨"as", "rs"⟩
      ⟨[], [(refreshKey "u1",
        ⟨jwtSign ⟨"u1", "a@b.c", "CUSTOMER"⟩ "rs" "7d", refreshTokenEx⟩)]⟩ "u1"
      (jwtSign ⟨"u1", "a@b.c", "CUSTOMER"⟩ "rs" "7d") ⟨"u1", "a@b.c", "CUSTOMER"⟩
      (by simp [jwtVerify, jwtSign]) rfl).1,
   (logout_invalidates_refresh ⟨"as", "rs"⟩
      ⟨[], [(refreshKey "u1",
        ⟨jwtSign ⟨"u1", "a@b.c", "CUSTOMER"⟩ "rs" "7d", refreshTokenEx⟩)]⟩ "u1"
      (jwtSign ⟨"u1", "a@b.c", "CUSTOMER"⟩ "rs" "7d") ⟨"u1", "a@b.c", "CUSTOMER"⟩
      (by simp [jwtVerify, jwtSign]) rfl).2 ⟨[], []⟩ rfl⟩
